import Mathlib

/-!
Verification of the idempotent multi-target publish orchestrator of
`the_lefthand` (seo-social-mcp-toolkit).

The development shallowly embeds the TypeScript sources:
  * `src/utils/hash.ts`   — `generateContentHash` (content fingerprinting),
  * `src/utils/retry.ts`  — `retryWithBackoff` (bounded exponential backoff),
  * `src/tools/publish-post.ts` — `publishPost`, `publishToTargets`,
    `computeOverallStatus` (the orchestrator),
  * `src/store/queries.ts` — the ledger operations, modelled as pure
    state transformers over an explicit `LedgerState`.

External effects (the SQL pool, the platform SDKs, wall-clock time) are
modelled by explicit state passing and an `Env` of publisher outcomes.
-/

namespace LeftHand

/-! ## JSON serialization model (JSON.stringify with an array replacer)

`generateContentHash` serializes its canonicalized object with
`JSON.stringify(stableContent, Object.keys(stableContent).sort())`.
Passing an array as the second argument makes it a property whitelist
that applies at every nesting level of the serialized value. -/

/-- Hexadecimal digit used by the control-character escapes of
JSON.stringify. -/
def hexDigit (n : Nat) : String :=
  if n < 10 then String.singleton (Char.ofNat (48 + n))
  else String.singleton (Char.ofNat (97 + (n - 10)))

/-- Escape of a single character inside a JSON string literal, following
JSON.stringify: quote, backslash, the named control escapes, and a
unicode escape for the remaining control characters. -/
def jsonEscapeChar (c : Char) : String :=
  if c = '"' then "\\\""
  else if c = '\\' then "\\\\"
  else if c = '\n' then "\\n"
  else if c = '\r' then "\\r"
  else if c = '\t' then "\\t"
  else if c = Char.ofNat 8 then "\\b"
  else if c = Char.ofNat 12 then "\\f"
  else if c.toNat < 32 then "\\u00" ++ hexDigit (c.toNat / 16) ++ hexDigit (c.toNat % 16)
  else String.singleton c

/-- JSON string literal for a string value. -/
def jsonStr (s : String) : String :=
  "\"" ++ String.join (s.data.map jsonEscapeChar) ++ "\""

/-- JSON array literal for an array of string values (array elements are
not filtered by the replacer whitelist). -/
def jsonStrArray (xs : List String) : String :=
  "[" ++ String.intercalate "," (xs.map jsonStr) ++ "]"

/-- Model of JavaScript `Array.prototype.sort()` on an array of strings:
sort lexicographically by code unit. -/
def sortStrings (xs : List String) : List String :=
  List.insertionSort (· ≤ ·) xs

/-- The list `Object.keys(stableContent).sort()` — the replacer array passed to
JSON.stringify in `generateContentHash`. -/
def hashKeys : List String :=
  ["body", "brandVoice", "canonicalUrl", "cta", "links", "mediaUrls",
   "metadata", "primaryKeyword", "secondaryKeywords", "tags", "topic"]

/-- The normalized content payload (`NormalizedContent` in
`src/types/index.ts`).  Optional fields are `Option`; the `metadata`
record (`z.record(z.any())`) is modelled as an association list of
scalar (string) values, which is the fragment the claims are about. -/
structure NormalizedContent where
  topic : Option String
  primaryKeyword : String
  secondaryKeywords : Option (List String)
  body : String
  cta : Option String
  canonicalUrl : String
  mediaUrls : Option (List String)
  tags : Option (List String)
  links : Option (List String)
  brandVoice : Option String
  metadata : Option (List (String × String))
deriving DecidableEq, Repr

/-- First-wins lookup in the metadata record (JavaScript objects hold at
most one value per key). -/
def metadataLookup (m : List (String × String)) (k : String) : Option String :=
  (m.find? (fun p => p.1 == k)).map (fun p => p.2)

/-- Serialization of the `metadata` record under JSON.stringify with the
array replacer: only the keys that occur in the replacer array survive,
in replacer-array order. -/
def metadataJson (m : List (String × String)) : String :=
  "\x7b" ++ String.intercalate ","
    (hashKeys.filterMap (fun k =>
      (metadataLookup m k).map (fun v => jsonStr k ++ ":" ++ jsonStr v)))
  ++ "\x7d"

/-- The canonical serialization built by `generateContentHash`
(`src/utils/hash.ts`, lines 32-49): the `stableContent` object — defaults
substituted for the optional fields, the four array fields sorted — then
`JSON.stringify(stableContent, Object.keys(stableContent).sort())`,
whose replacer array fixes the top-level key order and filters every
nested object (in particular `metadata`) by the same whitelist. -/
def stableContentString (c : NormalizedContent) : String :=
  "\x7b" ++
  "\"body\":" ++ jsonStr c.body ++ "," ++
  "\"brandVoice\":" ++ jsonStr (c.brandVoice.getD "professional") ++ "," ++
  "\"canonicalUrl\":" ++ jsonStr c.canonicalUrl ++ "," ++
  "\"cta\":" ++ jsonStr (c.cta.getD "") ++ "," ++
  "\"links\":" ++ jsonStrArray (sortStrings (c.links.getD [])) ++ "," ++
  "\"mediaUrls\":" ++ jsonStrArray (sortStrings (c.mediaUrls.getD [])) ++ "," ++
  "\"metadata\":" ++ metadataJson (c.metadata.getD []) ++ "," ++
  "\"primaryKeyword\":" ++ jsonStr c.primaryKeyword ++ "," ++
  "\"secondaryKeywords\":" ++ jsonStrArray (sortStrings (c.secondaryKeywords.getD [])) ++ "," ++
  "\"tags\":" ++ jsonStrArray (sortStrings (c.tags.getD [])) ++ "," ++
  "\"topic\":" ++ jsonStr (c.topic.getD "") ++
  "\x7d"

/-- The SHA-256 hex digest, modelled as an injective function of the
digested text (the claims about the fingerprint are all stated modulo
cryptographic hash collision, and every use in the program compares
digests for equality only, so injectivity is the exact abstraction). -/
def sha256Hex (s : String) : String := s

/-- Function `generateContentHash` (`src/utils/hash.ts`): SHA-256 of the
canonical serialization. -/
def generateContentHash (c : NormalizedContent) : String :=
  sha256Hex (stableContentString c)

/-! ## Semantic equality of content payloads -/

/-- Two payloads are semantically equal when every field agrees after
substituting the schema defaults for omitted optional fields, with the
four order-independent array fields compared up to permutation. -/
def SemanticallyEqual (a b : NormalizedContent) : Prop :=
  a.body = b.body ∧
  a.primaryKeyword = b.primaryKeyword ∧
  a.canonicalUrl = b.canonicalUrl ∧
  a.topic.getD "" = b.topic.getD "" ∧
  a.cta.getD "" = b.cta.getD "" ∧
  a.brandVoice.getD "professional" = b.brandVoice.getD "professional" ∧
  a.metadata.getD [] = b.metadata.getD [] ∧
  (a.tags.getD []).Perm (b.tags.getD []) ∧
  (a.secondaryKeywords.getD []).Perm (b.secondaryKeywords.getD []) ∧
  (a.links.getD []).Perm (b.links.getD []) ∧
  (a.mediaUrls.getD []).Perm (b.mediaUrls.getD [])

instance (a b : NormalizedContent) : Decidable (SemanticallyEqual a b) := by
  unfold SemanticallyEqual
  infer_instance

/-- Sorting is invariant under permutation of the input: both sorts are
sorted and they are permutations of one another. -/
theorem sortStrings_eq_of_perm {l₁ l₂ : List String} (h : l₁.Perm l₂) :
    sortStrings l₁ = sortStrings l₂ :=
  List.eq_of_perm_of_sorted
    (((List.perm_insertionSort _ l₁).trans h).trans (List.perm_insertionSort _ l₂).symm)
    (List.sorted_insertionSort _ l₁) (List.sorted_insertionSort _ l₂)

/-- C4. Fingerprint determinism: semantically equal payloads — equal
fields after defaulting omitted optional fields, with the four sortable
array fields compared up to reordering — receive the same fingerprint
from `generateContentHash`. -/
theorem generateContentHash_deterministic (a b : NormalizedContent)
    (h : SemanticallyEqual a b) :
    generateContentHash a = generateContentHash b := by
  obtain ⟨hb, hp, hc, ht, hcta, hbv, hm, htags, hsec, hlinks, hmedia⟩ := h
  unfold generateContentHash sha256Hex stableContentString
  rw [hb, hp, hc, ht, hcta, hbv, hm, sortStrings_eq_of_perm htags,
    sortStrings_eq_of_perm hsec, sortStrings_eq_of_perm hlinks,
    sortStrings_eq_of_perm hmedia]

/-- A concrete payload: reordered tags and secondary keywords, optional
fields omitted. -/
def exContentA : NormalizedContent :=
  { topic := none
    primaryKeyword := "seo"
    secondaryKeywords := some ["zeta", "alpha"]
    body := "Hello world"
    cta := none
    canonicalUrl := "https://example.com/post"
    mediaUrls := none
    tags := some ["b", "a"]
    links := none
    brandVoice := none
    metadata := none }

/-- The same payload with the arrays sorted and the optional fields set
to their schema defaults. -/
def exContentB : NormalizedContent :=
  { topic := some ""
    primaryKeyword := "seo"
    secondaryKeywords := some ["alpha", "zeta"]
    body := "Hello world"
    cta := some ""
    canonicalUrl := "https://example.com/post"
    mediaUrls := some []
    tags := some ["a", "b"]
    links := some []
    brandVoice := some "professional"
    metadata := some [] }

/-- Witness for C4 at a concrete pair of semantically equal payloads. -/
theorem generateContentHash_deterministic_witness :
    SemanticallyEqual exContentA exContentB ∧
      generateContentHash exContentA = generateContentHash exContentB :=
  ⟨by decide, generateContentHash_deterministic exContentA exContentB (by decide)⟩

/-! ## Fingerprint sensitivity (C5)

`JSON.stringify(stableContent, Object.keys(stableContent).sort())`
applies the replacer array as a key whitelist at every nesting level, so
a `metadata` entry whose key is not one of the eleven canonical field
names is silently dropped from the digested text. -/

/-- A payload whose metadata holds one scalar value. -/
def exContentMetaAlice : NormalizedContent :=
  { topic := none
    primaryKeyword := "seo"
    secondaryKeywords := none
    body := "Hello world"
    cta := none
    canonicalUrl := "https://example.com/post"
    mediaUrls := none
    tags := none
    links := none
    brandVoice := none
    metadata := some [("author", "alice")] }

/-- The same payload with the metadata scalar changed. -/
def exContentMetaBob : NormalizedContent :=
  { exContentMetaAlice with metadata := some [("author", "bob")] }

/-- C5 (refuted on the code). Changing a scalar stored under `metadata`
does not change the fingerprint: the replacer array of JSON.stringify
drops the `author` key from the serialized metadata object, so the two
payloads below digest to the identical canonical text — equal
fingerprints with no hash collision involved — although they differ in
a scalar metadata field. -/
theorem metadata_change_fingerprint_unchanged :
    generateContentHash exContentMetaAlice = generateContentHash exContentMetaBob ∧
      exContentMetaAlice.metadata ≠ exContentMetaBob.metadata := by
  exact ⟨rfl, by decide⟩

/-! ## Orchestrator data model (`src/types/index.ts`) -/

/-- The closed set of target platforms. -/
inductive TargetPlatform where
  | x
  | discord
deriving DecidableEq, Repr

/-- Per-target result status. -/
inductive TargetStatus where
  | success
  | failed
  | skipped
deriving DecidableEq, Repr

/-- One per-target publish result (`TargetResult`). -/
structure TargetResult where
  target : TargetPlatform
  status : TargetStatus
  platform_id : Option String
  platform_url : Option String
  error_message : Option String
  posted_at : Option String
deriving DecidableEq, Repr

/-- Overall publish status; the source value `partial` is spelt
`partial_` here. -/
inductive OverallStatus where
  | success
  | partial_
  | failed
  | dry_run
deriving DecidableEq, Repr

/-- Publish options after zod parsing (`PublishOptionsSchema`): the
boolean fields are defaulted to `false`, `discord_channel_id` stays
optional. -/
structure PublishOptions where
  discord_channel_id : Option String
  dry_run : Bool
  useUtm : Bool
  force_retry_failed_targets : Bool
deriving DecidableEq, Repr

/-- A validated `publish_post` input. -/
structure PublishInput where
  request_id : String
  content : NormalizedContent
  targets : List TargetPlatform
  options : PublishOptions
deriving DecidableEq, Repr

/-- The `publish_post` output record. -/
structure PublishOutput where
  request_id : String
  content_hash : String
  overall_status : OverallStatus
  per_target_results : List TargetResult
deriving DecidableEq, Repr

/-! ## The request ledger (`src/store/queries.ts`)

The PostgreSQL store is modelled as an explicit state: the
`post_requests` table, the `post_results` table (rows keyed by
`(request_id, target)` through a unique index, kept in `created_at`
insertion order), and the `post_drafts` rows. -/

/-- A `post_requests` row. -/
structure PostRequestRow where
  request_id : String
  content : NormalizedContent
  content_hash : String
  targets : List TargetPlatform
deriving DecidableEq, Repr

/-- The ledger state: all three tables. -/
structure LedgerState where
  requests : List PostRequestRow
  results : List (String × TargetResult)
  drafts : List String
deriving DecidableEq, Repr

/-- Query `findRequestById`: the row with the given `request_id`, if any. -/
def findRequestById (st : LedgerState) (rid : String) : Option PostRequestRow :=
  st.requests.find? (fun r => r.request_id == rid)

/-- Query `insertPostRequest`: append a new `post_requests` row. -/
def insertPostRequest (st : LedgerState) (rid : String) (content : NormalizedContent)
    (hash : String) (targets : List TargetPlatform) : LedgerState :=
  { st with requests := st.requests ++ [⟨rid, content, hash, targets⟩] }

/-- Query `insertPostDrafts`: append a `post_drafts` row (the drafts payload
itself is produced by the out-of-scope rendering collaborator). -/
def insertPostDrafts (st : LedgerState) (rid : String) : LedgerState :=
  { st with drafts := st.drafts ++ [rid] }

/-- Query `insertPostResult`: the composite-key upsert
(`ON CONFLICT (request_id, target) DO UPDATE`): update the existing row
for the key in place, or append a fresh row. -/
def insertPostResult (st : LedgerState) (rid : String) (tr : TargetResult) : LedgerState :=
  if st.results.any (fun p => p.1 == rid && p.2.target == tr.target) then
    { st with results := st.results.map (fun p =>
        if p.1 == rid && p.2.target == tr.target then (rid, tr) else p) }
  else
    { st with results := st.results ++ [(rid, tr)] }

/-- Record a list of target results one by one, as the loop
`for (const result of retryResults) await insertPostResult(...)` of the
orchestrator. -/
def insertResults (st : LedgerState) (rid : String) : List TargetResult → LedgerState
  | [] => st
  | r :: rs => insertResults (insertPostResult st rid r) rid rs

/-- Query `findResultsByRequestId`: all results of a request, in stored
(`created_at`) order. -/
def findResultsByRequestId (st : LedgerState) (rid : String) : List TargetResult :=
  (st.results.filter (fun p => p.1 == rid)).map (fun p => p.2)

/-- Query `findFailedTargets`: targets of the request whose stored status is
`failed`. -/
def findFailedTargets (st : LedgerState) (rid : String) : List TargetPlatform :=
  ((st.results.filter (fun p => p.1 == rid && p.2.status == TargetStatus.failed)).map
    (fun p => p.2.target))

/-- The database invariant enforced by the unique index on
`(request_id, target)`: no two result rows share the composite key. -/
def WellFormed (st : LedgerState) : Prop :=
  st.results.Pairwise (fun p q => p.1 = q.1 → p.2.target ≠ q.2.target)

instance (st : LedgerState) : Decidable (WellFormed st) := by
  unfold WellFormed
  infer_instance

/-! ## Publishing (`src/tools/publish-post.ts`)

A single publisher invocation — `xPublisher.publish` or
`discordPublisher.publish`, each already wrapped in `retryWithBackoff` —
either yields a platform receipt or exhausts its retries with a final
error message.  The outcomes of these external calls form the
environment of a publish call. -/

/-- Outcome of one (retry-wrapped) publisher invocation. -/
inductive PubOutcome where
  | success (platform_id platform_url : String)
  | failure (message : String)
deriving DecidableEq, Repr

/-- The environment of one `publishPost` call: the outcome each
publisher would produce if invoked, the completion timestamp
(`new Date().toISOString()`), and `config.discord.defaultChannelId`
(the empty string when unset). -/
structure Env where
  xOutcome : PubOutcome
  discordOutcome : PubOutcome
  now : String
  defaultChannelId : String
deriving DecidableEq, Repr

/-- The expression `opts.discord_channel_id || config.discord.defaultChannelId` —
JavaScript `||` falls through on the empty string as well as on an
absent field. -/
def effectiveChannelId (opts : PublishOptions) (env : Env) : String :=
  match opts.discord_channel_id with
  | some s => if s = "" then env.defaultChannelId else s
  | none => env.defaultChannelId

/-- The `TargetResult` recorded for an outcome: a success receipt gets
`posted_at := now`; a failure is caught and recorded with its message. -/
def mkResult (t : TargetPlatform) (o : PubOutcome) (env : Env) : TargetResult :=
  match o with
  | .success pid purl => ⟨t, .success, some pid, some purl, none, some env.now⟩
  | .failure msg => ⟨t, .failed, none, none, some msg, none⟩

/-- One iteration of the `for (const target of targets)` loop: the
result pushed for the target, plus the publisher invocations performed
(dry runs still invoke the publisher, which short-circuits internally;
a missing Discord channel id throws before any publisher call and is
caught by the per-target handler). -/
def attemptTarget (opts : PublishOptions) (env : Env) :
    TargetPlatform → TargetResult × List TargetPlatform
  | .x =>
    let outcome := if opts.dry_run then
        PubOutcome.success "dry_run_tweet_0" "https://twitter.com/i/web/status/dry_run_tweet_0"
      else env.xOutcome
    (mkResult .x outcome env, [.x])
  | .discord =>
    let ch := effectiveChannelId opts env
    if ch = "" then
      (⟨.discord, .failed, none, none, some "Discord channel ID is required", none⟩, [])
    else
      let outcome := if opts.dry_run then
          PubOutcome.success "dry_run_message_id"
            ("https://discord.com/channels/@me/" ++ ch ++ "/dry_run")
        else env.discordOutcome
      (mkResult .discord outcome env, [.discord])

/-- Function `publishToTargets`: publish to each target in order, every target
isolated by its own try/catch; returns the result list together with
the publisher invocations made. -/
def publishToTargets (targets : List TargetPlatform) (opts : PublishOptions) (env : Env) :
    List TargetResult × List TargetPlatform :=
  match targets with
  | [] => ([], [])
  | t :: ts =>
    let first := attemptTarget opts env t
    let rest := publishToTargets ts opts env
    (first.1 :: rest.1, first.2 ++ rest.2)

/-- Function `computeOverallStatus`: count the successful results against the
declared target count. -/
def computeOverallStatus (results : List TargetResult) (targets : List TargetPlatform) :
    OverallStatus :=
  let successCount := (results.filter (fun r => r.status == TargetStatus.success)).length
  let totalCount := targets.length
  if successCount = 0 then .failed
  else if successCount = totalCount then .success
  else .partial_

/-- The message of the conflict error thrown on a content-hash
mismatch. -/
def conflictMessage : String :=
  "Request ID content mismatch: same request_id with different content"

instance {ε α : Type} [DecidableEq ε] [DecidableEq α] : DecidableEq (Except ε α) := fun a b =>
  match a, b with
  | .ok x, .ok y =>
    if h : x = y then .isTrue (by rw [h]) else .isFalse (by intro hh; cases hh; exact h rfl)
  | .error x, .error y =>
    if h : x = y then .isTrue (by rw [h]) else .isFalse (by intro hh; cases hh; exact h rfl)
  | .ok _, .error _ => .isFalse (by intro hh; cases hh)
  | .error _, .ok _ => .isFalse (by intro hh; cases hh)

/-- The full observable outcome of one `publishPost` call: the returned
value or thrown error, the ledger state after the call, and the
publisher invocations performed. -/
structure PublishCallOutcome where
  result : Except String PublishOutput
  ledger : LedgerState
  publisherCalls : List TargetPlatform
deriving DecidableEq, Repr

/-- Function `publishPost` (`src/tools/publish-post.ts`, lines 22-127), as a pure
state transformer.  Control flow follows the source: hash the content;
look the request up; on a hash mismatch throw the conflict error; on a
match either replay the stored results or, when the caller forces it
and failed targets exist, republish exactly those targets and upsert
their rows; otherwise insert the request and drafts, publish to every
declared target, and record the results. -/
def publishPost (req : PublishInput) (st : LedgerState) (env : Env) : PublishCallOutcome :=
  let content_hash := generateContentHash req.content
  match findRequestById st req.request_id with
  | some existing =>
    if existing.content_hash ≠ content_hash then
      ⟨.error conflictMessage, st, []⟩
    else
      let existingResults := findResultsByRequestId st req.request_id
      let replay : PublishCallOutcome :=
        ⟨.ok ⟨req.request_id, content_hash,
              computeOverallStatus existingResults req.targets, existingResults⟩, st, []⟩
      if req.options.force_retry_failed_targets then
        let failedTargets := findFailedTargets st req.request_id
        if failedTargets.isEmpty then replay
        else
          let retry := publishToTargets failedTargets req.options env
          let st1 := insertResults st req.request_id retry.1
          let updatedResults := findResultsByRequestId st1 req.request_id
          ⟨.ok ⟨req.request_id, content_hash,
                computeOverallStatus updatedResults req.targets, updatedResults⟩, st1, retry.2⟩
      else replay
  | none =>
    let st1 := insertPostRequest st req.request_id req.content content_hash req.targets
    let st2 := insertPostDrafts st1 req.request_id
    let pub := publishToTargets req.targets req.options env
    let st3 := insertResults st2 req.request_id pub.1
    ⟨.ok ⟨req.request_id, content_hash,
          computeOverallStatus pub.1 req.targets, pub.1⟩, st3, pub.2⟩

/-! ## Idempotent replay, conflict detection, target-set independence -/

/-- C1. Idempotent replay: when the request id is already in the ledger,
the stored fingerprint equals the incoming one, and the caller did not
set `force_retry_failed_targets`, `publishPost` returns the stored
per-target results of the ledger verbatim, performs no publisher invocation,
and leaves the ledger state exactly as it was. -/
theorem publishPost_idempotent_replay (req : PublishInput) (st : LedgerState) (env : Env)
    (row : PostRequestRow)
    (hfound : findRequestById st req.request_id = some row)
    (hhash : row.content_hash = generateContentHash req.content)
    (hforce : req.options.force_retry_failed_targets = false) :
    publishPost req st env =
      ⟨.ok ⟨req.request_id, generateContentHash req.content,
            computeOverallStatus (findResultsByRequestId st req.request_id) req.targets,
            findResultsByRequestId st req.request_id⟩, st, []⟩ := by
  unfold publishPost
  rw [hfound]
  simp [hhash, hforce]

/-- Content used by the replay witness. -/
def wC1content : NormalizedContent :=
  ⟨none, "kw", none, "body text", none, "https://example.com/a", none, none, none, none, none⟩

/-- Stored request row of the replay witness. -/
def wC1row : PostRequestRow :=
  ⟨"req-1", wC1content, generateContentHash wC1content, [.x]⟩

/-- Stored result row of the replay witness. -/
def wC1result : TargetResult :=
  ⟨.x, .success, some "111", some "https://twitter.com/i/web/status/111", none,
   some "2024-01-01T00:00:00.000Z"⟩

/-- Ledger of the replay witness. -/
def wC1state : LedgerState := ⟨[wC1row], [("req-1", wC1result)], ["req-1"]⟩

/-- Input of the replay witness. -/
def wC1req : PublishInput := ⟨"req-1", wC1content, [.x], ⟨none, false, false, false⟩⟩

/-- Environment of the replay witness. -/
def wC1env : Env :=
  ⟨.success "222" "https://twitter.com/i/web/status/222",
   .success "333" "https://discord.com/channels/g/c/333",
   "2024-01-02T00:00:00.000Z", "chan-1"⟩

/-- Witness for C1 at a concrete ledger and request. -/
theorem publishPost_idempotent_replay_witness :
    findRequestById wC1state "req-1" = some wC1row ∧
    wC1row.content_hash = generateContentHash wC1content ∧
    publishPost wC1req wC1state wC1env =
      ⟨.ok ⟨"req-1", generateContentHash wC1content,
            computeOverallStatus (findResultsByRequestId wC1state "req-1") [TargetPlatform.x],
            findResultsByRequestId wC1state "req-1"⟩, wC1state, []⟩ :=
  ⟨rfl, rfl, publishPost_idempotent_replay wC1req wC1state wC1env wC1row rfl rfl rfl⟩

/-- C2. Conflict detection with atomicity: when the request id exists
and the stored fingerprint differs from the incoming one, `publishPost`
throws the conflict error, the ledger state is exactly the state before
the call (no write of any kind), and no publisher is invoked. -/
theorem publishPost_conflict_no_writes (req : PublishInput) (st : LedgerState) (env : Env)
    (row : PostRequestRow)
    (hfound : findRequestById st req.request_id = some row)
    (hhash : row.content_hash ≠ generateContentHash req.content) :
    publishPost req st env = ⟨.error conflictMessage, st, []⟩ := by
  unfold publishPost
  rw [hfound]
  simp [hhash]

/-- Altered content used by the conflict witness (the body differs from
`wC1content`). -/
def wC2content : NormalizedContent :=
  ⟨none, "kw", none, "ALTERED body text", none, "https://example.com/a", none, none, none,
   none, none⟩

/-- Input of the conflict witness: the stored request id with the
altered body. -/
def wC2req : PublishInput := ⟨"req-1", wC2content, [.x], ⟨none, false, false, false⟩⟩

/-- Witness for C2: replaying `req-1` with altered body throws the
conflict error and leaves the ledger untouched. -/
theorem publishPost_conflict_no_writes_witness :
    findRequestById wC1state "req-1" = some wC1row ∧
    wC1row.content_hash ≠ generateContentHash wC2content ∧
    publishPost wC2req wC1state wC1env = ⟨.error conflictMessage, wC1state, []⟩ :=
  ⟨rfl, by decide, publishPost_conflict_no_writes wC2req wC1state wC1env wC1row rfl (by decide)⟩

/-- C10. Targets are not part of the fingerprint: `generateContentHash`
reads only the content payload, so replaying a stored request id with
identical content but an arbitrary — for instance enlarged — target
list and no retry flag raises no conflict, invokes no publisher, and
returns the previously stored results; a target first named on the
replay is never published under that request id. -/
theorem publishPost_targets_not_in_fingerprint (rid : String) (c : NormalizedContent)
    (ts : List TargetPlatform) (opts : PublishOptions) (st : LedgerState) (env : Env)
    (row : PostRequestRow)
    (hfound : findRequestById st rid = some row)
    (hhash : row.content_hash = generateContentHash c)
    (hforce : opts.force_retry_failed_targets = false) :
    publishPost ⟨rid, c, ts, opts⟩ st env =
      ⟨.ok ⟨rid, generateContentHash c,
            computeOverallStatus (findResultsByRequestId st rid) ts,
            findResultsByRequestId st rid⟩, st, []⟩ := by
  unfold publishPost
  rw [show (PublishInput.mk rid c ts opts).request_id = rid from rfl] at *
  rw [hfound]
  simp [hhash, hforce]

/-- Input of the C10 witness: the stored single-target request replayed
with an enlarged target list. -/
def wC10req : PublishInput := ⟨"req-1", wC1content, [.x, .discord], ⟨none, false, false, false⟩⟩

/-- Witness for C10: the stored request has targets `[x]`; the replay
declares `[x, discord]`, yet no conflict is raised, no publisher is
invoked, and only the stored results come back. -/
theorem publishPost_targets_not_in_fingerprint_witness :
    findRequestById wC1state "req-1" = some wC1row ∧
    wC1row.targets = [TargetPlatform.x] ∧
    publishPost wC10req wC1state wC1env =
      ⟨.ok ⟨"req-1", generateContentHash wC1content,
            computeOverallStatus (findResultsByRequestId wC1state "req-1")
              [TargetPlatform.x, TargetPlatform.discord],
            findResultsByRequestId wC1state "req-1"⟩, wC1state, []⟩ :=
  ⟨rfl, rfl,
   publishPost_targets_not_in_fingerprint "req-1" wC1content [.x, .discord]
     ⟨none, false, false, false⟩ wC1state wC1env wC1row rfl rfl rfl⟩

/-! ## Partial failure isolation -/

/-- The result built for an outcome carries the target it was built
for. -/
theorem mkResult_target (t : TargetPlatform) (o : PubOutcome) (env : Env) :
    (mkResult t o env).target = t := by
  cases o <;> rfl

/-- Each loop iteration records a result for exactly the target it
processes. -/
theorem attemptTarget_target (opts : PublishOptions) (env : Env) (t : TargetPlatform) :
    ((attemptTarget opts env t).1).target = t := by
  cases t
  · simp [attemptTarget, mkResult_target]
  · simp only [attemptTarget]
    split
    · rfl
    · simp [mkResult_target]

/-- Each loop iteration invokes at most the publisher of its own target. -/
theorem attemptTarget_calls (opts : PublishOptions) (env : Env) (t : TargetPlatform) :
    ∀ t2 ∈ (attemptTarget opts env t).2, t2 = t := by
  cases t
  · simp [attemptTarget]
  · simp only [attemptTarget]
    split
    · simp
    · simp

/-- Status shape of the result of one iteration: a failure is recorded with
its (non-empty) message, a success with receipt and timestamp. -/
theorem attemptTarget_status (opts : PublishOptions) (env : Env) (t : TargetPlatform)
    (hx : ∀ m, env.xOutcome = .failure m → m ≠ "")
    (hd : ∀ m, env.discordOutcome = .failure m → m ≠ "") :
    (((attemptTarget opts env t).1).status = TargetStatus.failed →
      ∃ m, ((attemptTarget opts env t).1).error_message = some m ∧ m ≠ "")
    ∧ (((attemptTarget opts env t).1).status = TargetStatus.success →
        ((attemptTarget opts env t).1).platform_id.isSome ∧
        ((attemptTarget opts env t).1).platform_url.isSome ∧
        ((attemptTarget opts env t).1).posted_at.isSome) := by
  cases t
  case x =>
    simp only [attemptTarget]
    by_cases hdr : opts.dry_run = true
    · simp [hdr, mkResult]
    · simp only [Bool.not_eq_true] at hdr
      simp only [hdr, if_false, Bool.false_eq_true]
      cases hox : env.xOutcome with
      | success pid purl => simp [mkResult]
      | failure m =>
        constructor
        · intro _
          exact ⟨m, by simp [mkResult], hx m hox⟩
        · intro hs
          simp [mkResult] at hs
  case discord =>
    simp only [attemptTarget]
    split
    · constructor
      · intro _
        refine ⟨"Discord channel ID is required", by simp, by decide⟩
      · intro hs
        simp at hs
    · by_cases hdr : opts.dry_run = true
      · simp [hdr, mkResult]
      · simp only [Bool.not_eq_true] at hdr
        simp only [hdr, if_false, Bool.false_eq_true]
        cases hod : env.discordOutcome with
        | success pid purl => simp [mkResult]
        | failure m =>
          constructor
          · intro _
            exact ⟨m, by simp [mkResult], hd m hod⟩
          · intro hs
            simp [mkResult] at hs

/-- The results of a publish run are, target by target, exactly the
per-target attempts — each a function of its own target and the
environment only. -/
theorem publishToTargets_eq_map (ts : List TargetPlatform) (opts : PublishOptions) (env : Env) :
    (publishToTargets ts opts env).1 = ts.map (fun t => (attemptTarget opts env t).1) := by
  induction ts with
  | nil => rfl
  | cons t ts ih => simp [publishToTargets, ih]

/-- Every publisher invocation of a run belongs to the processed target
list. -/
theorem publishToTargets_calls_subset (ts : List TargetPlatform) (opts : PublishOptions)
    (env : Env) : ∀ t ∈ (publishToTargets ts opts env).2, t ∈ ts := by
  induction ts with
  | nil => simp [publishToTargets]
  | cons t ts ih =>
    intro t2 ht2
    simp only [publishToTargets, List.mem_append] at ht2
    rcases ht2 with h | h
    · exact (attemptTarget_calls opts env t t2 h) ▸ List.mem_cons_self t ts
    · exact List.mem_cons_of_mem t (ih t2 h)

/-- C6. Partial failure isolation: over any target list and any
assignment of publisher outcomes (every failure carrying a non-empty
message, as thrown errors do), the publish loop attempts every target —
each result a function of its own target and outcome alone, so the failure
of one target cannot prevent or alter the attempt of another; a failing
target is recorded as `failed` with a non-empty error message instead
of being thrown past the orchestrator (the loop is total and returns a
result for every target), and a succeeding target is recorded as
`success` with platform id, URL and `posted_at` set. -/
theorem publishToTargets_isolation (ts : List TargetPlatform) (opts : PublishOptions) (env : Env)
    (hx : ∀ m, env.xOutcome = .failure m → m ≠ "")
    (hd : ∀ m, env.discordOutcome = .failure m → m ≠ "") :
    (publishToTargets ts opts env).1 = ts.map (fun t => (attemptTarget opts env t).1)
    ∧ ((publishToTargets ts opts env).1).map (fun r => r.target) = ts
    ∧ (∀ t ∈ (publishToTargets ts opts env).2, t ∈ ts)
    ∧ ∀ r ∈ (publishToTargets ts opts env).1,
        (r.status = TargetStatus.failed → ∃ m, r.error_message = some m ∧ m ≠ "")
        ∧ (r.status = TargetStatus.success →
            r.platform_id.isSome ∧ r.platform_url.isSome ∧ r.posted_at.isSome) := by
  refine ⟨publishToTargets_eq_map ts opts env, ?_, publishToTargets_calls_subset ts opts env, ?_⟩
  · rw [publishToTargets_eq_map]
    simp only [List.map_map]
    have : (fun r : TargetResult => r.target) ∘ (fun t => (attemptTarget opts env t).1) = id := by
      funext t
      simp [attemptTarget_target]
    rw [this, List.map_id]
  · intro r hr
    rw [publishToTargets_eq_map] at hr
    simp only [List.mem_map] at hr
    obtain ⟨t, _, rfl⟩ := hr
    exact attemptTarget_status opts env t hx hd

/-- Environment of the isolation witness: the X publisher always fails
with message `boom`, the Discord publisher succeeds. -/
def wC6env : Env :=
  ⟨.failure "boom", .success "999" "https://discord.com/channels/g/c/999",
   "2024-03-01T00:00:00.000Z", "chan-1"⟩

/-- Options of the isolation witness. -/
def wC6opts : PublishOptions := ⟨none, false, false, false⟩

/-- Witness for C6: two targets, X always failing and Discord
succeeding — both attempted, the failure recorded with message `boom`,
the success with its receipt. -/
theorem publishToTargets_isolation_witness :
    (∀ m, wC6env.xOutcome = PubOutcome.failure m → m ≠ "") ∧
    (∀ m, wC6env.discordOutcome = PubOutcome.failure m → m ≠ "") ∧
    ((publishToTargets [TargetPlatform.x, TargetPlatform.discord] wC6opts wC6env).1 =
        [TargetPlatform.x, TargetPlatform.discord].map
          (fun t => (attemptTarget wC6opts wC6env t).1)
      ∧ ((publishToTargets [TargetPlatform.x, TargetPlatform.discord] wC6opts wC6env).1).map
          (fun r => r.target) = [TargetPlatform.x, TargetPlatform.discord]
      ∧ (∀ t ∈ (publishToTargets [TargetPlatform.x, TargetPlatform.discord] wC6opts wC6env).2,
          t ∈ [TargetPlatform.x, TargetPlatform.discord])
      ∧ ∀ r ∈ (publishToTargets [TargetPlatform.x, TargetPlatform.discord] wC6opts wC6env).1,
          (r.status = TargetStatus.failed → ∃ m, r.error_message = some m ∧ m ≠ "")
          ∧ (r.status = TargetStatus.success →
              r.platform_id.isSome ∧ r.platform_url.isSome ∧ r.posted_at.isSome)) :=
  ⟨(by intro m hm; cases hm; decide),
   (by intro m hm; cases hm),
   publishToTargets_isolation [TargetPlatform.x, TargetPlatform.discord] wC6opts wC6env
     (by intro m hm; cases hm; decide) (by intro m hm; cases hm)⟩

/-! ## Overall status aggregation -/

/-- C7 counterexample input: a fresh dry-run request. -/
def wC7req : PublishInput := ⟨"dry-1", wC1content, [.x], ⟨none, true, false, false⟩⟩

/-- The empty ledger. -/
def ledger0 : LedgerState := ⟨[], [], []⟩

/-- C7 (dry-run clause refuted on the code): a request executed in
simulation mode (`dry_run` set) aggregates to `success`, not to
`dry_run` — `computeOverallStatus` inspects only the success count and
no code path ever produces the declared `dry_run` value. -/
theorem overallStatus_dry_run_counterexample :
    (publishPost wC7req ledger0 wC1env).result.toOption.map (fun o => o.overall_status) =
      some OverallStatus.success
    ∧ OverallStatus.success ≠ OverallStatus.dry_run := by
  exact ⟨rfl, by decide⟩

/-- C7 as amended. `computeOverallStatus` is a pure function of the
result set versus the declared target list: `failed` exactly when no
result succeeded, `success` exactly when the success count is non-zero
and equals the declared target count, `partial` exactly otherwise — and
the value `dry_run`, though declared in the output type, is never
returned. -/
theorem computeOverallStatus_characterization (results : List TargetResult)
    (targets : List TargetPlatform) :
    computeOverallStatus results targets ≠ OverallStatus.dry_run
    ∧ (computeOverallStatus results targets = OverallStatus.failed ↔
        (results.filter (fun r => r.status == TargetStatus.success)).length = 0)
    ∧ (computeOverallStatus results targets = OverallStatus.success ↔
        ((results.filter (fun r => r.status == TargetStatus.success)).length ≠ 0 ∧
         (results.filter (fun r => r.status == TargetStatus.success)).length = targets.length))
    ∧ (computeOverallStatus results targets = OverallStatus.partial_ ↔
        ((results.filter (fun r => r.status == TargetStatus.success)).length ≠ 0 ∧
         (results.filter (fun r => r.status == TargetStatus.success)).length ≠ targets.length)) := by
  have hite : computeOverallStatus results targets =
      (if (results.filter (fun r => r.status == TargetStatus.success)).length = 0 then
        OverallStatus.failed
       else if (results.filter (fun r => r.status == TargetStatus.success)).length =
           targets.length then
        OverallStatus.success
       else OverallStatus.partial_) := rfl
  by_cases h1 : (results.filter (fun r => r.status == TargetStatus.success)).length = 0
  · rw [hite, if_pos h1]
    simp [h1]
  · by_cases h2 :
      (results.filter (fun r => r.status == TargetStatus.success)).length = targets.length
    · have h3 : targets ≠ [] := by
        intro h
        rw [h] at h2
        simp only [List.length_nil] at h2
        exact h1 h2
      rw [hite, if_neg h1, if_pos h2]
      simp [h1, h2, h3]
    · rw [hite, if_neg h1, if_neg h2]
      simp [h1, h2]

/-! ## Retry of failed targets -/

/-- The composite-key upsert leaves every row with a different
`(request_id, target)` key in place. -/
theorem insertPostResult_preserves (st : LedgerState) (rid : String) (tr : TargetResult)
    (p : String × TargetResult) (hp : p ∈ st.results)
    (hne : ¬(p.1 = rid ∧ p.2.target = tr.target)) :
    p ∈ (insertPostResult st rid tr).results := by
  have hfalse : (p.1 == rid && p.2.target == tr.target) = false := by
    by_contra hcon
    rw [Bool.not_eq_false, Bool.and_eq_true, beq_iff_eq, beq_iff_eq] at hcon
    exact hne hcon
  unfold insertPostResult
  split
  · exact List.mem_map.mpr ⟨p, hp, by simp [hfalse]⟩
  · exact List.mem_append_left _ hp

/-- Recording a batch of results preserves every row whose key collides
with none of them. -/
theorem insertResults_preserves (rid : String) (rs : List TargetResult) :
    ∀ (st : LedgerState) (p : String × TargetResult),
      p ∈ st.results → (∀ r ∈ rs, ¬(p.1 = rid ∧ p.2.target = r.target)) →
      p ∈ (insertResults st rid rs).results := by
  induction rs with
  | nil =>
    intro st p hp _
    exact hp
  | cons r rs ih =>
    intro st p hp hall
    have h1 : p ∈ (insertPostResult st rid r).results :=
      insertPostResult_preserves st rid r p hp (hall r (List.mem_cons_self r rs))
    exact ih _ p h1 (fun r2 hr2 => hall r2 (List.mem_cons_of_mem r hr2))

/-- Membership in `findFailedTargets`, unfolded to the underlying result
row. -/
theorem mem_findFailedTargets {st : LedgerState} {rid : String} {t : TargetPlatform} :
    t ∈ findFailedTargets st rid ↔
      ∃ p, p ∈ st.results ∧ p.1 = rid ∧ p.2.status = TargetStatus.failed ∧ p.2.target = t := by
  unfold findFailedTargets
  simp only [List.mem_map, List.mem_filter, Bool.and_eq_true, beq_iff_eq]
  constructor
  · rintro ⟨p, ⟨hp, h1, h2⟩, h3⟩
    exact ⟨p, hp, h1, h2, h3⟩
  · rintro ⟨p, hp, h1, h2, h3⟩
    exact ⟨p, ⟨hp, h1, h2⟩, h3⟩

/-- Under the unique-index invariant, the target of a successful stored
row is never among the failed targets of its request. -/
theorem success_row_not_failed_target (st : LedgerState) (hW : WellFormed st)
    {rid : String} {p : String × TargetResult} (hp : p ∈ st.results)
    (hrid : p.1 = rid) (hs : p.2.status = TargetStatus.success) :
    p.2.target ∉ findFailedTargets st rid := by
  intro hmem
  obtain ⟨q, hq, hq1, hq2, hq3⟩ := mem_findFailedTargets.mp hmem
  have hpq : p ≠ q := by
    intro h
    rw [← h] at hq2
    rw [hs] at hq2
    cases hq2
  have hsymm :
      Symmetric fun a b : String × TargetResult => a.1 = b.1 → a.2.target ≠ b.2.target := by
    intro a b h hba hne
    exact h hba.symm hne.symm
  have hR := hW.forall hsymm hp hq hpq
  exact hR (hrid.trans hq1.symm) hq3.symm

/-- C3. Retry-failed-only: on a stored request with matching fingerprint
and `force_retry_failed_targets` set, `publishPost` behaves as the
idempotent replay when no stored target is `failed`; otherwise it
republishes exactly the failed target list, invokes publishers only for
targets among it, leaves every previously successful stored row
untouched (the whole row — hence the same `platform_id` and `posted_at`
— is still in the ledger), upserts only the retried rows, and computes
`overall_status` from the full re-read result set of the request. -/
theorem publishPost_retry_failed_only (req : PublishInput) (st : LedgerState) (env : Env)
    (row : PostRequestRow)
    (hW : WellFormed st)
    (hfound : findRequestById st req.request_id = some row)
    (hhash : row.content_hash = generateContentHash req.content)
    (hforce : req.options.force_retry_failed_targets = true) :
    (findFailedTargets st req.request_id = [] →
      publishPost req st env =
        ⟨.ok ⟨req.request_id, generateContentHash req.content,
              computeOverallStatus (findResultsByRequestId st req.request_id) req.targets,
              findResultsByRequestId st req.request_id⟩, st, []⟩)
    ∧ (findFailedTargets st req.request_id ≠ [] →
        publishPost req st env =
          ⟨.ok ⟨req.request_id, generateContentHash req.content,
                computeOverallStatus
                  (findResultsByRequestId
                    (insertResults st req.request_id
                      (publishToTargets (findFailedTargets st req.request_id) req.options env).1)
                    req.request_id) req.targets,
                findResultsByRequestId
                  (insertResults st req.request_id
                    (publishToTargets (findFailedTargets st req.request_id) req.options env).1)
                  req.request_id⟩,
           insertResults st req.request_id
             (publishToTargets (findFailedTargets st req.request_id) req.options env).1,
           (publishToTargets (findFailedTargets st req.request_id) req.options env).2⟩)
    ∧ (∀ t ∈ (publishToTargets (findFailedTargets st req.request_id) req.options env).2,
        t ∈ findFailedTargets st req.request_id)
    ∧ (∀ p ∈ st.results, p.1 = req.request_id → p.2.status = TargetStatus.success →
        p ∈ (insertResults st req.request_id
              (publishToTargets (findFailedTargets st req.request_id) req.options env).1).results) := by
  refine ⟨?_, ?_, publishToTargets_calls_subset _ _ _, ?_⟩
  · intro hempty
    unfold publishPost
    rw [hfound]
    simp [hhash, hforce, hempty]
  · intro hne
    have hie : (findFailedTargets st req.request_id).isEmpty = false := by
      cases hfe : findFailedTargets st req.request_id with
      | nil => exact absurd hfe hne
      | cons a l => rfl
    unfold publishPost
    rw [hfound]
    simp [hhash, hforce, hie]
  · intro p hp hrid hs
    apply insertResults_preserves
    · exact hp
    · intro r hr hcontra
      obtain ⟨he1, he2⟩ := hcontra
      have hrt : r.target ∈ findFailedTargets st req.request_id := by
        have hmap := publishToTargets_eq_map (findFailedTargets st req.request_id) req.options env
        rw [hmap] at hr
        obtain ⟨t, ht, rfl⟩ := List.mem_map.mp hr
        rw [attemptTarget_target]
        exact ht
      rw [← he2] at hrt
      exact success_row_not_failed_target st hW hp hrid hs hrt

/-- Stored request row of the retry witness: two targets. -/
def wC3row : PostRequestRow :=
  ⟨"req-3", wC1content, generateContentHash wC1content, [.x, .discord]⟩

/-- The previously failed X row of the retry witness. -/
def wC3failedResult : TargetResult := ⟨.x, .failed, none, none, some "boom", none⟩

/-- The previously successful Discord row of the retry witness. -/
def wC3okResult : TargetResult :=
  ⟨.discord, .success, some "555", some "https://discord.com/channels/g/c/555", none,
   some "2024-01-01T00:00:00.000Z"⟩

/-- Ledger of the retry witness. -/
def wC3state : LedgerState :=
  ⟨[wC3row], [("req-3", wC3failedResult), ("req-3", wC3okResult)], ["req-3"]⟩

/-- Input of the retry witness: same content, retry flag set. -/
def wC3req : PublishInput :=
  ⟨"req-3", wC1content, [.x, .discord], ⟨some "chan-1", false, false, true⟩⟩

/-- Environment of the retry witness: the X publisher now succeeds. -/
def wC3env : Env :=
  ⟨.success "444" "https://twitter.com/i/web/status/444",
   .success "666" "https://discord.com/channels/g/c/666",
   "2024-04-01T00:00:00.000Z", ""⟩

set_option maxRecDepth 4000 in
/-- Witness for C3 at a concrete partially failed request, plus the
evaluated consequences: only X is re-invoked, the old Discord row
survives verbatim, and the overall status becomes `success`. -/
theorem publishPost_retry_failed_only_witness :
    WellFormed wC3state ∧
    findRequestById wC3state wC3req.request_id = some wC3row ∧
    wC3row.content_hash = generateContentHash wC3req.content ∧
    wC3req.options.force_retry_failed_targets = true ∧
    findFailedTargets wC3state wC3req.request_id = [TargetPlatform.x] ∧
    (publishPost wC3req wC3state wC3env).publisherCalls = [TargetPlatform.x] ∧
    ("req-3", wC3okResult) ∈ (publishPost wC3req wC3state wC3env).ledger.results ∧
    (publishPost wC3req wC3state wC3env).result.toOption.map (fun o => o.overall_status) =
      some OverallStatus.success ∧
    (∀ p ∈ wC3state.results, p.1 = wC3req.request_id →
      p.2.status = TargetStatus.success →
      p ∈ (insertResults wC3state wC3req.request_id
            (publishToTargets (findFailedTargets wC3state wC3req.request_id)
              wC3req.options wC3env).1).results) :=
  ⟨by decide, rfl, rfl, rfl, rfl, rfl, by decide, rfl,
   (publishPost_retry_failed_only wC3req wC3state wC3env wC3row (by decide) rfl rfl rfl).2.2.2⟩

/-! ## Bounded exponential backoff (`src/utils/retry.ts`)

`retryWithBackoff` is modelled as a pure recursion over the attempt
outcomes: `op n` is what the wrapped operation does on its `n`-th
invocation.  Delay values are modelled as naturals (milliseconds).  The
trace records the returned or thrown result, how many times the
operation was invoked, and the argument of each `sleep` call in
order. -/

/-- The retry policy (`RetryConfig` in `src/types/index.ts`). -/
structure RetryConfig where
  maxAttempts : Nat
  initialDelayMs : Nat
  maxDelayMs : Nat
  backoffMultiplier : Nat
deriving DecidableEq, Repr

/-- Observable trace of one `retryWithBackoff` call. -/
structure RetryTrace (α : Type) where
  result : Except String α
  attemptsMade : Nat
  sleeps : List Nat
deriving DecidableEq, Repr

/-- The `for (let attempt = 1; attempt <= maxAttempts; ...)` loop.
`fuel` counts the attempts still allowed including the current one, so
`fuel = 1` is the `attempt === maxAttempts` iteration, which breaks on
failure instead of sleeping; the loop epilogue throws the recorded last
error, or the fallback message when no attempt ever ran.  The delay is
multiplied and capped only after the sleep, exactly as in the source
(`await sleep(delay); delay = Math.min(delay * multiplier, maxDelayMs)`). -/
def retryLoop (op : Nat → Except String α) (mult maxDelay : Nat) :
    Nat → Nat → Nat → Option String → RetryTrace α
  | _, 0, _, lastError => ⟨.error (lastError.getD "Retry failed with unknown error"), 0, []⟩
  | attempt, fuel + 1, delay, _ =>
    match op attempt with
    | .ok v => ⟨.ok v, 1, []⟩
    | .error e =>
      if fuel = 0 then ⟨.error e, 1, []⟩
      else
        let rest :=
          retryLoop op mult maxDelay (attempt + 1) fuel
            (min (delay * mult) maxDelay) (some e)
        ⟨rest.result, rest.attemptsMade + 1, delay :: rest.sleeps⟩

/-- Function `retryWithBackoff` (`src/utils/retry.ts`, lines 7-41). -/
def retryWithBackoff (op : Nat → Except String α) (cfg : RetryConfig) : RetryTrace α :=
  retryLoop op cfg.backoffMultiplier cfg.maxDelayMs 1 cfg.maxAttempts cfg.initialDelayMs none

/-- C8. Concrete backoff bound: with `maxAttempts = 3`,
`initialDelayMs = 1000`, `backoffMultiplier = 2`, `maxDelayMs = 10000`
and an operation failing on every attempt, the operation is invoked
exactly three times, exactly two sleeps occur with delays 1000 ms then
2000 ms, and exactly the failure of the third attempt is raised — the
earlier failures are swallowed. -/
theorem retryWithBackoff_three_attempts (msg : Nat → String) :
    retryWithBackoff (fun n => (Except.error (msg n) : Except String Unit))
        ⟨3, 1000, 10000, 2⟩ =
      ⟨Except.error (msg 3), 3, [1000, 2000]⟩ := rfl

/-- Witness for C8 at a concrete family of failure messages. -/
theorem retryWithBackoff_three_attempts_witness :
    retryWithBackoff (fun n => (Except.error (String.append "fail " (toString n)) :
        Except String Unit)) ⟨3, 1000, 10000, 2⟩ =
      ⟨Except.error (String.append "fail " (toString 3)), 3, [1000, 2000]⟩ :=
  retryWithBackoff_three_attempts (fun n => String.append "fail " (toString n))

/-- C9 counterexample: with `initialDelayMs = 30000` above
`maxDelayMs = 10000` (`maxAttempts = 2`, multiplier 1), the single
sleep performed is the uncapped 30000 ms — not
`min(currentDelay, maxDelayMs) = 10000` — and the total time slept,
30000 ms, exceeds `maxAttempts × maxDelayMs = 20000` ms: the cap is
applied only to the updated delay after each sleep, never to the first
sleep. -/
theorem retryWithBackoff_uncapped_first_sleep :
    retryWithBackoff (fun _ => (Except.error "boom" : Except String Unit))
        ⟨2, 30000, 10000, 1⟩ =
      ⟨Except.error "boom", 2, [30000]⟩
    ∧ (retryWithBackoff (fun _ => (Except.error "boom" : Except String Unit))
        ⟨2, 30000, 10000, 1⟩).sleeps ≠ [min 30000 10000]
    ∧ 2 * 10000 <
        (retryWithBackoff (fun _ => (Except.error "boom" : Except String Unit))
          ⟨2, 30000, 10000, 1⟩).sleeps.sum := by
  refine ⟨rfl, ?_, ?_⟩
  · decide
  · decide

/-- Every sleep of the loop stays below the cap once the running delay
does, and the total slept is bounded by `fuel × maxDelay`. -/
theorem retryLoop_sleeps_bounded (op : Nat → Except String α) (mult maxDelay : Nat) :
    ∀ (fuel attempt delay : Nat) (le0 : Option String), delay ≤ maxDelay →
      (∀ s ∈ (retryLoop op mult maxDelay attempt fuel delay le0).sleeps, s ≤ maxDelay)
      ∧ (retryLoop op mult maxDelay attempt fuel delay le0).sleeps.sum ≤ fuel * maxDelay := by
  intro fuel
  induction fuel with
  | zero =>
    intro attempt delay le0 _
    exact ⟨fun s hs => ((List.not_mem_nil s) hs).elim, Nat.zero_le _⟩
  | succ fuel ih =>
    intro attempt delay le0 hdelay
    have heq : retryLoop op mult maxDelay attempt (fuel + 1) delay le0 =
        match op attempt with
        | .ok v => (⟨.ok v, 1, []⟩ : RetryTrace α)
        | .error e =>
          if fuel = 0 then (⟨.error e, 1, []⟩ : RetryTrace α)
          else
            let rest := retryLoop op mult maxDelay (attempt + 1) fuel
                (min (delay * mult) maxDelay) (some e)
            ⟨rest.result, rest.attemptsMade + 1, delay :: rest.sleeps⟩ := rfl
    cases hop : op attempt with
    | ok v =>
      rw [heq, hop]
      exact ⟨fun s hs => ((List.not_mem_nil s) hs).elim, Nat.zero_le _⟩
    | error e =>
      cases fuel with
      | zero =>
        rw [heq, hop]
        exact ⟨fun s hs => ((List.not_mem_nil s) hs).elim, Nat.zero_le _⟩
      | succ fuel2 =>
        rw [heq, hop]
        have hnext : min (delay * mult) maxDelay ≤ maxDelay := min_le_right _ _
        have hrest := ih (attempt + 1) (min (delay * mult) maxDelay) (some e) hnext
        constructor
        · intro s hs
          rcases List.mem_cons.mp hs with rfl | h
          · exact hdelay
          · exact hrest.1 s h
        · show delay + (retryLoop op mult maxDelay (attempt + 1) (fuel2 + 1)
              (min (delay * mult) maxDelay) (some e)).sleeps.sum ≤ (fuel2 + 1 + 1) * maxDelay
          calc delay + (retryLoop op mult maxDelay (attempt + 1) (fuel2 + 1)
              (min (delay * mult) maxDelay) (some e)).sleeps.sum
              ≤ maxDelay + (fuel2 + 1) * maxDelay := Nat.add_le_add hdelay hrest.2
            _ = (fuel2 + 1 + 1) * maxDelay := by ring

/-- C9 as amended. The source caps the delay only when updating it
after a sleep (`sleep(delay); delay = min(delay * multiplier,
maxDelayMs)`), so the first sleep is the uncapped `initialDelayMs`.
Provided `initialDelayMs ≤ maxDelayMs`, the running delay stays below
the cap, every sleep is at most `maxDelayMs`, and the total time slept
never exceeds `maxAttempts × maxDelayMs`. -/
theorem retryWithBackoff_sleep_bounds (op : Nat → Except String α) (cfg : RetryConfig)
    (hinit : cfg.initialDelayMs ≤ cfg.maxDelayMs) :
    (∀ s ∈ (retryWithBackoff op cfg).sleeps, s ≤ cfg.maxDelayMs)
    ∧ (retryWithBackoff op cfg).sleeps.sum ≤ cfg.maxAttempts * cfg.maxDelayMs :=
  retryLoop_sleeps_bounded op cfg.backoffMultiplier cfg.maxDelayMs cfg.maxAttempts 1
    cfg.initialDelayMs none hinit

/-- Witness for the amended C9 at the concrete policy of the spec. -/
theorem retryWithBackoff_sleep_bounds_witness :
    1000 ≤ 10000
    ∧ ((∀ s ∈ (retryWithBackoff (fun _ => (Except.error "boom" : Except String Unit))
          ⟨3, 1000, 10000, 2⟩).sleeps, s ≤ 10000)
       ∧ (retryWithBackoff (fun _ => (Except.error "boom" : Except String Unit))
          ⟨3, 1000, 10000, 2⟩).sleeps.sum ≤ 3 * 10000) :=
  ⟨by decide,
   retryWithBackoff_sleep_bounds (fun _ => (Except.error "boom" : Except String Unit))
     ⟨3, 1000, 10000, 2⟩ (by decide)⟩

end LeftHand
